import Mathlib

/-!
# BSMenu3D: scene registry and per-scene camera set-up

A shallow embedding of `BSMenu3DScene.cpp` (namespace `BSMenu3D`): the `Scene`
constructors and destructor, `Scene::SetupCamera`,
`Scene::SetupMenuToTextureOnObject`, `Scene::SetActive` / `Scene::QActive`,
`Scene::SetViewport`, and the `SceneManager` registry (`Register`, `Unregister`, `GetByName`,
`ForEachScene`, `SetActiveAll`).

Conventions of the embedding.

* A `Scene*` is an address (`Nat`), `nullptr` is `0`; the live `Scene` objects
  are a partial map from addresses to `Scene` values.
* A failed `BSASSERTFAST` (and a dereference of a pointer to no live object) is
  the result `none`.
* In `SetupCamera`, which calls `tan`, `float` is an arbitrary carrier `F` with
  the operations the source applies to it (`FloatOps`); no rounding behaviour
  is assumed, only the two identities recorded as fields of `FloatOps`.
* In `SetViewport`, which multiplies, subtracts and converts, a finite `float`
  is the rational number it denotes, and an operation rounds the exact result
  to the nearest binary32 value, ties to even (`rne`); a result beyond the
  finite range, and a conversion to an integer type that cannot hold the
  truncated value, is the result `none`.
* Every acquisition and release of `ScenesRWLock`, every access to
  `MenuScenes` and every call of a `ForEachScene` callback is appended to a
  log, in program order.
-/

namespace BSMenu3D

/-! ## Strings -/

/-- The characters (bytes) of a `BSFixedString`, its terminating NUL left out. -/
abbrev BSFixedString := String

/-- The method `BSFixedString::QString`: the characters before the terminating NUL. -/
def QString (s : BSFixedString) : List Char := s.data

/-- The method `BSFixedString::QLength`: the number of characters. -/
def QLength (s : BSFixedString) : Nat := s.data.length

/-- The method `BSFixedString::QEmpty`: whether there is no character. -/
def QEmpty (s : BSFixedString) : Bool := s.data.isEmpty

/-- The terminating NUL of a C string. -/
def NUL : Char := Char.ofNat 0

/-- C `strncmp` on two NUL-terminated strings given by the characters before
their terminators: at most `n` characters are compared, the comparison stops
at the first difference or at a NUL common to both, and the result is the
difference of the two characters where it stopped (`0` when none differ).
Reading at the end of a list reads the terminator. -/
def strncmp : List Char → List Char → Nat → Int
  | _, _, 0 => 0
  | s1, s2, n + 1 =>
    let c1 := s1.headD NUL
    let c2 := s2.headD NUL
    if c1 ≠ c2 then (c1.toNat : Int) - (c2.toNat : Int)
    else if c1 = NUL then 0
    else strncmp s1.tail s2.tail n

/-! ## Containers and visitation -/

/-- The types `BSContainer::ForEachResult` and `BSVisit::BSVisitControl`: what a
callback answers to the loop that called it. -/
inductive BSVisitControl where
  | Continue
  | Stop
  deriving DecidableEq, Repr

/-- A `Scene*`: the address of the object, `0` for `nullptr`. -/
abbrev ScenePtr := Nat

/-- The null `Scene*`. -/
def nullptr : ScenePtr := 0

/-- Modelled from the spec: the container type of `SceneManager::MenuScenes` is
declared outside the source file; the spec describes it as a "mapping from
scene name to `Scene*`", "insertion order irrelevant; keys unique". It is an
association list from names to pointers. -/
abbrev SceneMap := List (BSFixedString × ScenePtr)

/-- Modelled from the spec: `MenuScenes.SetAt(key, value)` "inserts/overwrites
the registry entry keyed by" `key`: whatever was stored under the key is
dropped and the new entry is stored. -/
def SetAt (k : BSFixedString) (v : ScenePtr) (m : SceneMap) : SceneMap :=
  (k, v) :: m.filter (fun e => decide (e.1 ≠ k))

/-- Modelled from the spec: `MenuScenes.Remove(key)` "removes the entry keyed
by" `key` "if present; removing an unregistered name is a silent no-op". -/
def Remove (k : BSFixedString) (m : SceneMap) : SceneMap :=
  m.filter (fun e => decide (e.1 ≠ k))

/-- Modelled from the spec: `MenuScenes.GetAt(key, out)` stores the value
registered under `key` in `out` and leaves `out` as it was when there is none;
`GetAt k out m` is the value of `out` after the call. -/
def GetAt (k : BSFixedString) (out : ScenePtr) : SceneMap → ScenePtr
  | [] => out
  | e :: m => if e.1 = k then e.2 else GetAt k out m

/-- Modelled from the spec: `MenuScenes.ForEach(f)` calls `f` on the entries of
the map one after the other, threading the state `σ` the callback works on,
until the entries are exhausted, a callback answers `Stop`, or a callback
fails. -/
def ForEach {σ : Type} (f : BSFixedString → ScenePtr → σ → Option (σ × BSVisitControl)) :
    SceneMap → σ → Option σ
  | [], s => some s
  | e :: m, s =>
    match f e.1 e.2 s with
    | none => none
    | some (s1, BSVisitControl.Continue) => ForEach f m s1
    | some (s1, BSVisitControl.Stop) => some s1

/-- The number of entries of the map stored under the key `k`. -/
def entriesFor (k : BSFixedString) (m : SceneMap) : Nat :=
  (m.filter (fun e => decide (e.1 = k))).length

/-! ## Scene graph -/

/-- A `BSGeometry`: its name and the key of its material instance. -/
structure BSGeometry where
  name : BSFixedString
  QMaterialInstanceKey : Nat
  deriving DecidableEq, Repr

/-- A scene-graph object: a drawable geometry, or a node with children. -/
inductive NiAVObject where
  | geometry (g : BSGeometry)
  | node (name : BSFixedString) (children : List NiAVObject)

mutual
/-- The geometries of the subtree of an object, depth first, in child order. -/
def NiAVObject.geometries : NiAVObject → List BSGeometry
  | .geometry g => [g]
  | .node _ cs => geometriesOfList cs
/-- The geometries of the subtrees of a list of objects, in order. -/
def geometriesOfList : List NiAVObject → List BSGeometry
  | [] => []
  | c :: cs => c.geometries ++ geometriesOfList cs
end

/-- The visiting loop of `TraverseScenegraphGeometries` over the geometries in
traversal order: the callback is called on each, threading its state, until it
answers `Stop`. -/
def visitGeometries {σ : Type} (f : BSGeometry → σ → σ × BSVisitControl) :
    List BSGeometry → σ → σ
  | [], s => s
  | g :: gs, s =>
    match f g s with
    | (s1, BSVisitControl.Continue) => visitGeometries f gs s1
    | (s1, BSVisitControl.Stop) => s1

/-- Modelled from the spec: `BSVisit::TraverseScenegraphGeometries(root, f)`,
declared outside the source file, "traverses all drawable geometries under the
root" as "a depth-first visitor" whose callback returns "a continue/stop
signal". -/
def TraverseScenegraphGeometries {σ : Type} (root : NiAVObject)
    (f : BSGeometry → σ → σ × BSVisitControl) (s : σ) : σ :=
  visitGeometries f root.geometries s

/-! ## Floating point, settings, camera -/

/-- The operations the source applies to `float` values, over a carrier `F`.
The operations are arbitrary but for two identities, both of which hold of
IEEE-754 arithmetic in its default rounding mode: a value that is `<= 0` is
not `> 0`, and negating a factor negates the (rounded) product (`fmul_neg`
below shows the second for the binary32 product of this file). -/
structure FloatOps (F : Type) where
  /-- The literal `0.f`. -/
  zero : F
  /-- Unary minus. -/
  neg : F → F
  /-- The product, `a * b`. -/
  mul : F → F → F
  /-- The quotient, `a / b`. -/
  div : F → F → F
  /-- The C library `tan`. -/
  tan : F → F
  /-- The comparison `a > b`. -/
  gt : F → F → Bool
  /-- The comparison `a <= b`. -/
  le : F → F → Bool
  /-- The conversion `static_cast<float>` of an unsigned integer. -/
  ofUInt : Nat → F
  /-- A value that is `<= 0` is not `> 0`. -/
  le_zero_not_gt : ∀ x, le x zero = true → gt x zero = false
  /-- Negating a factor negates the product. -/
  neg_mul : ∀ a b, mul (neg a) b = neg (mul a b)

/-- The values `SetupCamera` and the constructors read from outside the source
file: the INI settings, the constants of the headers, the back-buffer size of
the render settings manager, and the initial value of `Scene::Active`. -/
structure Settings (F : Type) where
  /-- The INI setting `fDefaultFOV`. -/
  fDefaultFOV : F
  /-- The INI setting `fUICameraNearDistance:Interface`. -/
  fUICameraNearDistance : F
  /-- The INI setting `fUICameraFarDistance:Interface`. -/
  fUICameraFarDistance : F
  /-- The constant `DEG_TO_RAD`. -/
  DEG_TO_RAD : F
  /-- The constant `FOVScaleC`. -/
  FOVScaleC : F
  /-- The window setting `BackbufferWidth`. -/
  BackbufferWidth : Nat
  /-- The window setting `BackbufferHeight`. -/
  BackbufferHeight : Nat
  /-- The value the class declaration gives `Active` in a new `Scene`. -/
  ActiveDefault : Bool

/-- An `NiFrustum`: the four side planes and the two distances. -/
structure NiFrustum (F : Type) where
  m_fLeft : F
  m_fRight : F
  m_fTop : F
  m_fBottom : F
  m_fNear : F
  m_fFar : F

/-- The part of an `NiCamera` that `SetupCamera` computes: its name, the
far/near ratio given to `SetMaxFarNearRatio` and the frustum given to
`SetViewFrustum`. -/
structure NiCamera (F : Type) where
  Name : BSFixedString
  MaxFarNearRatio : F
  ViewFrustum : NiFrustum F

/-- The method `Scene::QRenderTargetSize`: the back-buffer width and height as floats. -/
def QRenderTargetSize {F : Type} (ofUInt : Nat → F) (BackbufferWidth BackbufferHeight : Nat) :
    F × F :=
  (ofUInt BackbufferWidth, ofUInt BackbufferHeight)

/-- The camera `Scene::SetupCamera` creates for a scene named `Name` and a
requested field of view `aFOV`. The writes to the renderer's camera-view,
image-space and feature records, and the fixed transform of the camera, are
outside the embedding. -/
def SetupCamera {F : Type} (ops : FloatOps F) (cfg : Settings F) (Name : BSFixedString)
    (aFOV : F) : NiCamera F :=
  let m_fFar := cfg.fUICameraFarDistance
  let m_fNear := cfg.fUICameraNearDistance
  let ratio := ops.div m_fFar m_fNear
  let targetSize := QRenderTargetSize ops.ofUInt cfg.BackbufferWidth cfg.BackbufferHeight
  let fscreenAspect := ops.div targetSize.1 targetSize.2
  let fov := if ops.gt aFOV ops.zero then aFOV else cfg.fDefaultFOV
  let theta := ops.mul (ops.mul fov cfg.DEG_TO_RAD) cfg.FOVScaleC
  { Name := Name
    MaxFarNearRatio := ratio
    ViewFrustum :=
      { m_fLeft := ops.mul (ops.neg (ops.tan theta)) fscreenAspect
        m_fRight := ops.mul (ops.tan theta) fscreenAspect
        m_fBottom := ops.neg (ops.tan theta)
        m_fTop := ops.tan theta
        m_fNear := m_fNear
        m_fFar := m_fFar } }

/-! ## Scenes and the registry -/

/-- The members of a `Scene` the embedding follows. -/
structure Scene (F : Type) where
  Name : BSFixedString
  spScene : Option NiAVObject
  spObjects : Option NiAVObject
  spCamera : Option (NiCamera F)
  Active : Bool

/-- What the log records. -/
inductive Event where
  /-- A `BSAutoWriteLock` on `ScenesRWLock` is constructed. -/
  | AcquireWrite
  /-- That `BSAutoWriteLock` is destroyed. -/
  | ReleaseWrite
  /-- A `BSAutoReadLock` on `ScenesRWLock` is constructed. -/
  | AcquireRead
  /-- That `BSAutoReadLock` is destroyed. -/
  | ReleaseRead
  /-- The call `MenuScenes.SetAt(k, v)`. -/
  | MapSetAt (k : BSFixedString) (v : ScenePtr)
  /-- The call `MenuScenes.Remove(k)`. -/
  | MapRemove (k : BSFixedString)
  /-- The call `MenuScenes.GetAt(k, _)`. -/
  | MapGetAt (k : BSFixedString)
  /-- The call `MenuScenes.ForEach(_)`. -/
  | MapForEach
  /-- The callback of `ForEachScene` is called on a scene. -/
  | Callback (p : ScenePtr)
  deriving DecidableEq, Repr

/-- The state of the program: the live `Scene` objects by address, the map
`MenuScenes` of the `SceneManager` singleton, and the log. -/
structure World (F : Type) where
  heap : ScenePtr → Option (Scene F)
  MenuScenes : SceneMap
  log : List Event

/-- The object a `Scene*` points to: none for `nullptr` and for an address
that holds no live scene. -/
def World.deref {F : Type} (w : World F) (p : ScenePtr) : Option (Scene F) :=
  if p = nullptr then none else w.heap p

/-- The heap with the object at `p` replaced. -/
def World.store {F : Type} (w : World F) (p : ScenePtr) (s : Option (Scene F)) : World F :=
  { w with heap := fun q => if q = p then s else w.heap q }

/-- The world with events appended to its log. -/
def World.emit {F : Type} (w : World F) (es : List Event) : World F :=
  { w with log := w.log ++ es }

/-- The method `SceneManager::Register`: the pointer must point to a scene; the
map is written under the write lock. -/
def Register {F : Type} (apScene : ScenePtr) (w : World F) : Option (World F) :=
  match w.deref apScene with
  | none => none
  | some s =>
    some { w with
      MenuScenes := SetAt s.Name apScene w.MenuScenes
      log := w.log ++ [Event.AcquireWrite, Event.MapSetAt s.Name apScene, Event.ReleaseWrite] }

/-- The method `SceneManager::Unregister`: the pointer must point to a scene;
the entry under its name is removed under the write lock. -/
def Unregister {F : Type} (apScene : ScenePtr) (w : World F) : Option (World F) :=
  match w.deref apScene with
  | none => none
  | some s =>
    some { w with
      MenuScenes := Remove s.Name w.MenuScenes
      log := w.log ++ [Event.AcquireWrite, Event.MapRemove s.Name, Event.ReleaseWrite] }

/-- The method `SceneManager::GetByName`: the pointer returned (`nullptr` when the name
is not registered) and the world after the call. -/
def GetByName {F : Type} (aName : BSFixedString) (w : World F) : ScenePtr × World F :=
  (GetAt aName nullptr w.MenuScenes,
   w.emit [Event.AcquireRead, Event.MapGetAt aName, Event.ReleaseRead])

/-- The method `Scene::SetActive`. -/
def SetActive {F : Type} (this : ScenePtr) (aActive : Bool) (w : World F) : Option (World F) :=
  match w.deref this with
  | none => none
  | some s => some (w.store this (some { s with Active := aActive }))

/-- The method `Scene::QActive`. -/
def QActive {F : Type} (this : ScenePtr) (w : World F) : Option Bool :=
  (w.deref this).map (fun s => s.Active)

/-- The method `SceneManager::ForEachScene`: the callback is called on the scene of each
entry of `MenuScenes` and the loop always continues. The entries visited are
those of the map when the loop starts. -/
def ForEachScene {F : Type} (aSceneFunc : ScenePtr → World F → Option (World F))
    (w : World F) : Option (World F) :=
  ForEach
    (fun _ aScene w1 =>
      (aSceneFunc aScene (w1.emit [Event.Callback aScene])).map
        (fun w2 => (w2, BSVisitControl.Continue)))
    w.MenuScenes (w.emit [Event.MapForEach])

/-- The method `SceneManager::SetActiveAll`. -/
def SetActiveAll {F : Type} (aActive : Bool) (w : World F) : Option (World F) :=
  ForEachScene (fun aScene w1 => SetActive aScene aActive w1) w

/-- The method `Scene::Update`: the zero-time update of the scene graph and the camera
changes nothing the embedding follows. -/
def Update {F : Type} (_this : ScenePtr) (w : World F) : World F := w

/-- The constructor `Scene::Scene(aName, aImageSpaceData, aFOV)`, run on the
storage at `this`: a fresh root node named `aName` with the objects node as
its child, the camera, the update, and the registration. The image-space key
only reaches renderer records outside the embedding. -/
def Scene.construct {F : Type} (ops : FloatOps F) (cfg : Settings F) (this : ScenePtr)
    (aName : BSFixedString) (aFOV : F) (w : World F) : Option (World F) :=
  let spObjects := NiAVObject.node "" []
  let spScene := NiAVObject.node aName [spObjects]
  let s : Scene F :=
    { Name := aName
      spScene := some spScene
      spObjects := some spObjects
      spCamera := some (SetupCamera ops cfg aName aFOV)
      Active := cfg.ActiveDefault }
  Register this (Update this (w.store this (some s)))

/-- The constructor `Scene::Scene(aName, aspSceneOverride, aImageSpaceData,
aFOV)`, run on the storage at `this`: the override must not be null; the
camera is set up against it, and the scene is updated and registered. The
members `spScene` and `spObjects` are not assigned. -/
def Scene.constructOverride {F : Type} (ops : FloatOps F) (cfg : Settings F) (this : ScenePtr)
    (aName : BSFixedString) (aspSceneOverride : Option NiAVObject) (aFOV : F)
    (w : World F) : Option (World F) :=
  match aspSceneOverride with
  | none => none
  | some _ =>
    let s : Scene F :=
      { Name := aName
        spScene := none
        spObjects := none
        spCamera := some (SetupCamera ops cfg aName aFOV)
        Active := cfg.ActiveDefault }
    Register this (Update this (w.store this (some s)))

/-- The destructor `Scene::~Scene`, run on the object at `this`: the scene is
unregistered, then its storage holds no scene any more. -/
def Scene.destroy {F : Type} (this : ScenePtr) (w : World F) : Option (World F) :=
  (Unregister this w).map (fun w1 => w1.store this none)

/-! ## Menu to texture -/

/-- A call of `MaterialInstance::TEMP_RequestModifyLayer`: the material
instance, the layer index, and whether the texture replaced is
`TextureUtils::Base`. The target handle is the replica of the scene's
off-screen target in every call. -/
structure ModifyLayerRequest where
  material : Nat
  layer : Nat
  slotIsBase : Bool
  deriving DecidableEq, Repr

/-- The test of `SetupMenuToTextureOnObject` on a geometry name. -/
def nameSelected (aObjectName rgeomName : BSFixedString) : Bool :=
  !QEmpty rgeomName &&
    decide (strncmp (QString rgeomName) (QString aObjectName) (QLength aObjectName) = 0)

/-- The method `Scene::SetupMenuToTextureOnObject` on a scene value: the requests to
modify a material layer it issues, in order; none when an assertion fails. -/
def SetupMenuToTextureOnObject {F : Type} (s : Scene F) (aObjectName : BSFixedString) :
    Option (List ModifyLayerRequest) :=
  if QEmpty aObjectName then none
  else
    match s.spScene with
    | none => none
    | some root =>
      some (TraverseScenegraphGeometries root
        (fun arGeometry reqs =>
          (if nameSelected aObjectName arGeometry.name then
              reqs ++ [{ material := arGeometry.QMaterialInstanceKey, layer := 0,
                         slotIsBase := true }]
            else reqs,
           BSVisitControl.Continue))
        [])

/-! ## Viewport: binary32 arithmetic on rationals -/

/-- Rounding of a rational to the nearest integer, a tie to the even one. -/
def roundEven (y : ℚ) : ℤ :=
  if y - ⌊y⌋ < 1 / 2 then ⌊y⌋
  else if 1 / 2 < y - ⌊y⌋ then ⌊y⌋ + 1
  else if ⌊y⌋ % 2 = 0 then ⌊y⌋ else ⌊y⌋ + 1

/-- The exponent of the unit in the last place of the binary32 values near `x`:
24 significant bits, the exponent of a normal value at least `-126`. -/
def ulpExp (x : ℚ) : ℤ := max (Int.log 2 |x|) (-126) - 23

/-- The binary32 value nearest to `x`, a tie to the one with an even
significand, the exponent not bounded above. -/
def rne (x : ℚ) : ℚ := (roundEven (x / (2 : ℚ) ^ ulpExp x) : ℚ) * (2 : ℚ) ^ ulpExp x

/-- The value of a float operation whose exact result is `x`: the rounded
result when it is finite, none when the operation overflows. -/
def roundF32 (x : ℚ) : Option ℚ :=
  if |rne x| < (2 : ℚ) ^ (128 : ℕ) then some (rne x) else none

/-- The float product `a * b`. -/
def fmul (a b : ℚ) : Option ℚ := roundF32 (a * b)

/-- The float difference `a - b`. -/
def fsub (a b : ℚ) : Option ℚ := roundF32 (a - b)

/-- The conversion `static_cast<float>` of a 32-bit unsigned integer. -/
def floatOfUInt32 (n : ℕ) : ℚ := rne (n : ℚ)

/-- Truncation toward zero, the first step of a float to integer conversion. -/
def truncate (x : ℚ) : ℤ := if 0 ≤ x then ⌊x⌋ else ⌈x⌉

/-- The conversion `int32_t(x)`: none when the truncated value is out of range. -/
def toInt32 (x : ℚ) : Option ℤ :=
  if -(2 : ℤ) ^ 31 ≤ truncate x ∧ truncate x < (2 : ℤ) ^ 31 then some (truncate x) else none

/-- The conversion `static_cast<uint32_t>(x)`: none when the truncated value is
out of range. -/
def toUInt32 (x : ℚ) : Option ℕ :=
  if 0 ≤ truncate x ∧ truncate x < (2 : ℤ) ^ 32 then some (truncate x).toNat else none

/-- An `NiRect<float>`, its members finite floats. -/
structure NiRect where
  m_left : ℚ
  m_right : ℚ
  m_top : ℚ
  m_bottom : ℚ

/-- The arguments of a call `GFxMovie::SetViewport(bufW, bufH, left, top,
width, height)`. -/
structure ViewportCall where
  bufW : ℕ
  bufH : ℕ
  left : ℤ
  top : ℤ
  width : ℤ
  height : ℤ

/-- The method `Scene::SetViewport`: the call it makes on the movie for a back
buffer of the given size and a render area; none when a float operation
overflows or a conversion is out of range. -/
def SetViewport (BackbufferWidth BackbufferHeight : ℕ) (arRenderArea : NiRect) :
    Option ViewportCall := do
  let screenSize := QRenderTargetSize floatOfUInt32 BackbufferWidth BackbufferHeight
  let uiPageTargetWidthC ← toUInt32 screenSize.1
  let uiPageTargetHeightC ← toUInt32 screenSize.2
  let left ← (fmul (floatOfUInt32 uiPageTargetWidthC) arRenderArea.m_left).bind toInt32
  let top ← (fmul (floatOfUInt32 uiPageTargetHeightC) arRenderArea.m_top).bind toInt32
  let dw ← fsub arRenderArea.m_right arRenderArea.m_left
  let width ← (fmul (floatOfUInt32 uiPageTargetWidthC) dw).bind toInt32
  let dh ← fsub arRenderArea.m_bottom arRenderArea.m_top
  let height ← (fmul (floatOfUInt32 uiPageTargetHeightC) dh).bind toInt32
  pure { bufW := uiPageTargetWidthC, bufH := uiPageTargetHeightC,
         left := left, top := top, width := width, height := height }

/-! ## Lock discipline -/

/-- How `ScenesRWLock` is held at a point of the log. -/
inductive LockState where
  | Free
  | Shared
  | Exclusive
  deriving DecidableEq, Repr

/-- Whether a log respects the lock, starting from a lock state: `SetAt` and
`Remove` need exclusive access, `GetAt`, `ForEach` and the callbacks of an
iteration need shared or exclusive access, and the lock is taken only when
free and released only by its holder. -/
def guarded : LockState → List Event → Bool
  | _, [] => true
  | LockState.Free, Event.AcquireWrite :: es => guarded LockState.Exclusive es
  | LockState.Exclusive, Event.ReleaseWrite :: es => guarded LockState.Free es
  | LockState.Free, Event.AcquireRead :: es => guarded LockState.Shared es
  | LockState.Shared, Event.ReleaseRead :: es => guarded LockState.Free es
  | LockState.Exclusive, Event.MapSetAt _ _ :: es => guarded LockState.Exclusive es
  | LockState.Exclusive, Event.MapRemove _ :: es => guarded LockState.Exclusive es
  | LockState.Exclusive, Event.MapGetAt _ :: es => guarded LockState.Exclusive es
  | LockState.Shared, Event.MapGetAt _ :: es => guarded LockState.Shared es
  | LockState.Exclusive, Event.MapForEach :: es => guarded LockState.Exclusive es
  | LockState.Shared, Event.MapForEach :: es => guarded LockState.Shared es
  | LockState.Exclusive, Event.Callback _ :: es => guarded LockState.Exclusive es
  | LockState.Shared, Event.Callback _ :: es => guarded LockState.Shared es
  | _, _ :: _ => false

/-! ## Example data -/

/-- Integer arithmetic as an interpretation of the float operations, for
evaluating the definitions on examples; `tan` is the identity here. -/
def intOps : FloatOps Int where
  zero := 0
  neg := fun a => -a
  mul := fun a b => a * b
  div := fun a b => a / b
  tan := fun a => a
  gt := fun a b => decide (a > b)
  le := fun a b => decide (a ≤ b)
  ofUInt := fun n => (n : Int)
  le_zero_not_gt := by
    intro x h
    simp only [decide_eq_true_eq, decide_eq_false_iff_not, gt_iff_lt, not_lt] at h ⊢
    exact h
  neg_mul := fun a b => Int.neg_mul a b

/-- Example settings over the integers: a 1920 by 1080 back buffer. -/
def exampleSettings : Settings Int where
  fDefaultFOV := 75
  fUICameraNearDistance := 2
  fUICameraFarDistance := 214
  DEG_TO_RAD := 1
  FOVScaleC := 1
  BackbufferWidth := 1920
  BackbufferHeight := 1080
  ActiveDefault := false

/-- The world with no scene and an empty registry. -/
def emptyWorld : World Int where
  heap := fun _ => none
  MenuScenes := []
  log := []

/-- An example scene named `MainMenu`, inactive. -/
def sceneA : Scene Int where
  Name := "MainMenu"
  spScene := none
  spObjects := none
  spCamera := none
  Active := false

/-- A second example scene named `MainMenu`, active. -/
def sceneB : Scene Int where
  Name := "MainMenu"
  spScene := none
  spObjects := none
  spCamera := none
  Active := true

/-- A world with `sceneA` at address 1 and `sceneB` at address 2, and an
empty registry. -/
def twoScenes : World Int where
  heap := fun p => if p = 1 then some sceneA else if p = 2 then some sceneB else none
  MenuScenes := []
  log := []

/-- A world in which both example scenes are live and registered, `sceneA` as
`Main` and `sceneB` as `Pause`. -/
def registeredWorld : World Int where
  heap := fun p => if p = 1 then some sceneA else if p = 2 then some sceneB else none
  MenuScenes := [("Main", 1), ("Pause", 2)]
  log := []

/-- An example scene graph: five geometries, two of them with a name that
starts with `Screen`. -/
def exampleGraph : NiAVObject :=
  NiAVObject.node "Root"
    [NiAVObject.geometry { name := "Screen01", QMaterialInstanceKey := 10 },
     NiAVObject.node "Arm"
       [NiAVObject.geometry { name := "Scr", QMaterialInstanceKey := 11 },
        NiAVObject.geometry { name := "Screen", QMaterialInstanceKey := 12 },
        NiAVObject.geometry { name := "", QMaterialInstanceKey := 13 },
        NiAVObject.geometry { name := "Button", QMaterialInstanceKey := 14 }]]

/-- An example scene whose root is `exampleGraph`. -/
def sceneWithGraph : Scene Int where
  Name := "Terminal"
  spScene := some exampleGraph
  spObjects := none
  spCamera := none
  Active := false

/-! ## Facts about the map -/

/-- After `SetAt(k, v)`, `GetAt(k, _)` finds `v`. -/
theorem GetAt_SetAt (k : BSFixedString) (v out : ScenePtr) (m : SceneMap) :
    GetAt k out (SetAt k v m) = v := by
  simp [SetAt, GetAt]

/-- After `Remove(k)`, `GetAt(k, out)` leaves `out` as it was. -/
theorem GetAt_Remove (k : BSFixedString) (out : ScenePtr) (m : SceneMap) :
    GetAt k out (Remove k m) = out := by
  induction m with
  | nil => rfl
  | cons e m ih =>
    by_cases h : e.1 = k
    · simpa [Remove, List.filter_cons, h] using ih
    · simpa [Remove, List.filter_cons, h, GetAt] using ih

/-- After `Remove(k)` the map has no entry for `k`. -/
theorem entriesFor_Remove (k : BSFixedString) (m : SceneMap) :
    entriesFor k (Remove k m) = 0 := by
  simp [entriesFor, Remove, List.filter_filter]

/-- After `SetAt(k, v)` the map has one entry for `k`. -/
theorem entriesFor_SetAt (k : BSFixedString) (v : ScenePtr) (m : SceneMap) :
    entriesFor k (SetAt k v m) = 1 := by
  have h := entriesFor_Remove k m
  simp only [entriesFor, Remove] at h
  simp [entriesFor, SetAt, List.filter_cons, h]

/-- Removing a key forgets what was set at it. -/
theorem Remove_SetAt (k : BSFixedString) (v : ScenePtr) (m : SceneMap) :
    Remove k (SetAt k v m) = Remove k m := by
  simp [Remove, SetAt, List.filter_cons, List.filter_filter]

/-- Removing a key twice is removing it once. -/
theorem Remove_Remove (k : BSFixedString) (m : SceneMap) :
    Remove k (Remove k m) = Remove k m := by
  simp [Remove, List.filter_filter]

/-- Removing a key with no entry leaves the map as it was. -/
theorem Remove_of_entriesFor_zero (k : BSFixedString) (m : SceneMap)
    (h : entriesFor k m = 0) : Remove k m = m := by
  induction m with
  | nil => rfl
  | cons e m ih =>
    by_cases hk : e.1 = k
    · simp [entriesFor, List.filter_cons, hk] at h
    · have h1 : entriesFor k m = 0 := by
        simpa [entriesFor, List.filter_cons, hk] using h
      have h2 := ih h1
      simp only [Remove] at h2 ⊢
      rw [List.filter_cons_of_pos (by simpa using hk), h2]

/-- With no entry for `k`, `GetAt(k, out)` leaves `out` as it was. -/
theorem GetAt_of_entriesFor_zero (k : BSFixedString) (out : ScenePtr) (m : SceneMap)
    (h : entriesFor k m = 0) : GetAt k out m = out := by
  rw [← Remove_of_entriesFor_zero k m h]
  exact GetAt_Remove k out m

/-! ## Facts about the registry operations -/

/-- The result of `Register` on a pointer to a live scene. -/
theorem Register_eq {F : Type} (w : World F) (p : ScenePtr) (s : Scene F)
    (h : w.deref p = some s) :
    Register p w = some { w with
      MenuScenes := SetAt s.Name p w.MenuScenes
      log := w.log ++ [Event.AcquireWrite, Event.MapSetAt s.Name p, Event.ReleaseWrite] } := by
  simp [Register, h]

/-- The result of `Unregister` on a pointer to a live scene. -/
theorem Unregister_eq {F : Type} (w : World F) (p : ScenePtr) (s : Scene F)
    (h : w.deref p = some s) :
    Unregister p w = some { w with
      MenuScenes := Remove s.Name w.MenuScenes
      log := w.log ++ [Event.AcquireWrite, Event.MapRemove s.Name, Event.ReleaseWrite] } := by
  simp [Unregister, h]

/-- A scene stored at a non-null address is what the address points to. -/
theorem deref_store_same {F : Type} (w : World F) (p : ScenePtr) (s : Scene F)
    (hp : p ≠ nullptr) : (w.store p (some s)).deref p = some s := by
  simp [World.deref, World.store, hp]

/-! ## The claims -/

/-- C1: for every state and every two live scenes `a` and `b` with the same
name, `Register(a)` then `Register(b)` both succeed, `GetByName` of the name
then returns `b`, and `MenuScenes` holds exactly one entry for the name. -/
theorem C1_last_registration_wins {F : Type} (w : World F) (a b : ScenePtr) (A B : Scene F)
    (hA : w.deref a = some A) (hB : w.deref b = some B) (hname : A.Name = B.Name) :
    ∃ w1 w2, Register a w = some w1 ∧ Register b w1 = some w2 ∧
      (GetByName A.Name w2).1 = b ∧ entriesFor A.Name w2.MenuScenes = 1 := by
  refine ⟨_, _, Register_eq w a A hA, Register_eq _ b B ?_, ?_, ?_⟩
  · simpa [World.deref] using hB
  · simp [GetByName, hname, GetAt_SetAt]
  · simp [hname, entriesFor_SetAt]

/-- C2: for every state and every live scene `a`, after `Register(a)` then
`Unregister(a)` the name of `a` is not found; a second `Unregister(a)`
succeeds and leaves the map and the scenes as the first left them; and
`Unregister(a)` in a state whose map has no entry for the name of `a` succeeds
and leaves the map as it was. -/
theorem C2_unregister_removes_and_is_idempotent {F : Type} (w : World F) (a : ScenePtr)
    (A : Scene F) (hA : w.deref a = some A) :
    (∃ w1 w2 w3, Register a w = some w1 ∧ Unregister a w1 = some w2 ∧
      (GetByName A.Name w2).1 = nullptr ∧
      Unregister a w2 = some w3 ∧ w3.MenuScenes = w2.MenuScenes ∧ w3.heap = w2.heap) ∧
    (entriesFor A.Name w.MenuScenes = 0 →
      ∃ w1, Unregister a w = some w1 ∧ w1.MenuScenes = w.MenuScenes ∧ w1.heap = w.heap) := by
  refine ⟨⟨_, _, _, Register_eq w a A hA, Unregister_eq _ a A ?_, ?_,
    Unregister_eq _ a A ?_, ?_, rfl⟩, ?_⟩
  · simpa [World.deref] using hA
  · simp [GetByName, GetAt_Remove]
  · simpa [World.deref] using hA
  · simp [Remove_Remove]
  · intro h0
    exact ⟨_, Unregister_eq w a A hA, by simp [Remove_of_entriesFor_zero _ _ h0], rfl⟩

/-- An instance of C1: both example scenes are named `MainMenu`; registered
one after the other, the second is the one found. -/
theorem C1_last_registration_wins_witness :
    twoScenes.deref 1 = some sceneA ∧ twoScenes.deref 2 = some sceneB ∧
    sceneA.Name = sceneB.Name ∧
    ∃ w1 w2, Register 1 twoScenes = some w1 ∧ Register 2 w1 = some w2 ∧
      (GetByName sceneA.Name w2).1 = 2 ∧ entriesFor sceneA.Name w2.MenuScenes = 1 :=
  ⟨rfl, rfl, rfl, C1_last_registration_wins twoScenes 1 2 sceneA sceneB rfl rfl rfl⟩

/-- An instance of C2 at the example scene at address 1. -/
theorem C2_unregister_removes_and_is_idempotent_witness :
    twoScenes.deref 1 = some sceneA ∧
    ((∃ w1 w2 w3, Register 1 twoScenes = some w1 ∧ Unregister 1 w1 = some w2 ∧
      (GetByName sceneA.Name w2).1 = nullptr ∧
      Unregister 1 w2 = some w3 ∧ w3.MenuScenes = w2.MenuScenes ∧ w3.heap = w2.heap) ∧
    (entriesFor sceneA.Name twoScenes.MenuScenes = 0 →
      ∃ w1, Unregister 1 twoScenes = some w1 ∧ w1.MenuScenes = twoScenes.MenuScenes ∧
        w1.heap = twoScenes.heap)) :=
  ⟨rfl, C2_unregister_removes_and_is_idempotent twoScenes 1 sceneA rfl⟩

/-- A scene stored at a non-null address and registered is found under its
name; destroying it afterwards succeeds, and then the name is not found and
the address holds no scene. -/
theorem register_then_destroy {F : Type} (w : World F) (this : ScenePtr) (s : Scene F)
    (hp : this ≠ nullptr) :
    ∃ w1 w2, Register this (Update this (w.store this (some s))) = some w1 ∧
      (GetByName s.Name w1).1 = this ∧ w1.deref this = some s ∧
      Scene.destroy this w1 = some w2 ∧
      (GetByName s.Name w2).1 = nullptr ∧ w2.deref this = none := by
  have h0 : (Update this (w.store this (some s))).deref this = some s :=
    deref_store_same w this s hp
  have h1 := Register_eq _ this s h0
  generalize hw1 : ({ Update this (w.store this (some s)) with
      MenuScenes := SetAt s.Name this (Update this (w.store this (some s))).MenuScenes
      log := (Update this (w.store this (some s))).log ++
        [Event.AcquireWrite, Event.MapSetAt s.Name this, Event.ReleaseWrite] } : World F) = w1
    at h1
  have hd : w1.deref this = some s := by
    rw [← hw1]; simpa [World.deref] using h0
  have hm : w1.MenuScenes = SetAt s.Name this w.MenuScenes := by
    rw [← hw1]; rfl
  have h2 := Unregister_eq w1 this s hd
  refine ⟨w1, World.store { w1 with
      MenuScenes := Remove s.Name w1.MenuScenes
      log := w1.log ++ [Event.AcquireWrite, Event.MapRemove s.Name, Event.ReleaseWrite] }
    this none, h1, ?_, hd, ?_, ?_, ?_⟩
  · simp [GetByName, hm, GetAt_SetAt]
  · rw [Scene.destroy, h2]; rfl
  · simp [GetByName, World.store, hm, Remove_SetAt, GetAt_Remove]
  · simp [World.deref, World.store]

/-- C3: for every state, name and non-null address, constructing a scene of
that name at the address with either constructor (the second with a non-null
override) succeeds and makes `GetByName` of the name return the address;
destroying the scene then succeeds and makes `GetByName` of the name return
`nullptr`; and `GetByName` of a name with no entry in the map returns
`nullptr`. -/
theorem C3_scene_lifetime_registration {F : Type} (ops : FloatOps F) (cfg : Settings F)
    (w : World F) (this : ScenePtr) (n : BSFixedString) (aFOV : F) (hp : this ≠ nullptr) :
    (∃ w1 w2, Scene.construct ops cfg this n aFOV w = some w1 ∧
      (GetByName n w1).1 = this ∧ Scene.destroy this w1 = some w2 ∧
      (GetByName n w2).1 = nullptr) ∧
    (∀ root : NiAVObject, ∃ w1 w2,
      Scene.constructOverride ops cfg this n (some root) aFOV w = some w1 ∧
      (GetByName n w1).1 = this ∧ Scene.destroy this w1 = some w2 ∧
      (GetByName n w2).1 = nullptr) ∧
    (entriesFor n w.MenuScenes = 0 → (GetByName n w).1 = nullptr) := by
  refine ⟨?_, ?_, ?_⟩
  · obtain ⟨w1, w2, h1, h2, _, h4, h5, _⟩ := register_then_destroy w this
      { Name := n
        spScene := some (NiAVObject.node n [NiAVObject.node "" []])
        spObjects := some (NiAVObject.node "" [])
        spCamera := some (SetupCamera ops cfg n aFOV)
        Active := cfg.ActiveDefault } hp
    exact ⟨w1, w2, h1, h2, h4, h5⟩
  · intro root
    obtain ⟨w1, w2, h1, h2, _, h4, h5, _⟩ := register_then_destroy w this
      { Name := n
        spScene := none
        spObjects := none
        spCamera := some (SetupCamera ops cfg n aFOV)
        Active := cfg.ActiveDefault } hp
    exact ⟨w1, w2, h1, h2, h4, h5⟩
  · intro h0
    simp [GetByName, GetAt_of_entriesFor_zero _ _ _ h0]

/-- An instance of C3: a scene named `MainMenu` built at address 1 in the
empty world. -/
theorem C3_scene_lifetime_registration_witness :
    (1 : ScenePtr) ≠ nullptr ∧
    ((∃ w1 w2, Scene.construct intOps exampleSettings 1 "MainMenu" 0 emptyWorld = some w1 ∧
      (GetByName "MainMenu" w1).1 = 1 ∧ Scene.destroy 1 w1 = some w2 ∧
      (GetByName "MainMenu" w2).1 = nullptr) ∧
    (∀ root : NiAVObject, ∃ w1 w2,
      Scene.constructOverride intOps exampleSettings 1 "MainMenu" (some root) 0 emptyWorld
        = some w1 ∧
      (GetByName "MainMenu" w1).1 = 1 ∧ Scene.destroy 1 w1 = some w2 ∧
      (GetByName "MainMenu" w2).1 = nullptr) ∧
    (entriesFor "MainMenu" emptyWorld.MenuScenes = 0 →
      (GetByName "MainMenu" emptyWorld).1 = nullptr)) :=
  ⟨by decide, C3_scene_lifetime_registration intOps exampleSettings emptyWorld 1 "MainMenu" 0
    (by decide)⟩

/-- One callback of `SetActiveAll` on a live scene: it succeeds, logs the
call, leaves the map alone, keeps live scenes live, sets the flag of the scene
and leaves every flag that already has the value. -/
theorem SetActive_callback {F : Type} (w : World F) (p : ScenePtr) (b : Bool)
    (hlive : (w.deref p).isSome = true) :
    ∃ w2, SetActive p b (w.emit [Event.Callback p]) = some w2 ∧
      w2.MenuScenes = w.MenuScenes ∧ w2.log = w.log ++ [Event.Callback p] ∧
      (∀ q, (w.deref q).isSome = true → (w2.deref q).isSome = true) ∧
      (∀ q, QActive q w = some b → QActive q w2 = some b) ∧
      QActive p w2 = some b := by
  obtain ⟨s, hs⟩ := Option.isSome_iff_exists.mp hlive
  have hp : p ≠ nullptr := by
    intro h0
    simp [World.deref, h0] at hs
  have hs1 : (w.emit [Event.Callback p]).deref p = some s := by
    simpa [World.deref, World.emit] using hs
  refine ⟨(w.emit [Event.Callback p]).store p (some { s with Active := b }), ?_, rfl, rfl,
    ?_, ?_, ?_⟩
  · simp [SetActive, hs1]
  · intro q hq
    by_cases hqp : q = p
    · subst hqp
      simp [World.deref, World.store, World.emit, hp]
    · simpa [World.deref, World.store, World.emit, hqp] using hq
  · intro q hq
    by_cases hqp : q = p
    · subst hqp
      simp [QActive, World.deref, World.store, World.emit, hp]
    · simpa [QActive, World.deref, World.store, World.emit, hqp] using hq
  · simp [QActive, World.deref, World.store, World.emit, hp]

/-- The loop of `SetActiveAll` over a list of entries whose scenes are live. -/
theorem ForEach_SetActive {F : Type} (b : Bool) (m : SceneMap) :
    ∀ w : World F, (∀ e ∈ m, (w.deref e.2).isSome = true) →
    ∃ w1, ForEach
        (fun _ aScene (w1 : World F) =>
          (SetActive aScene b (w1.emit [Event.Callback aScene])).map
            (fun w2 => (w2, BSVisitControl.Continue)))
        m w = some w1 ∧
      w1.MenuScenes = w.MenuScenes ∧
      w1.log = w.log ++ m.map (fun e => Event.Callback e.2) ∧
      (∀ q, (w.deref q).isSome = true → (w1.deref q).isSome = true) ∧
      (∀ q, QActive q w = some b → QActive q w1 = some b) ∧
      (∀ e ∈ m, QActive e.2 w1 = some b) := by
  induction m with
  | nil =>
    intro w _
    exact ⟨w, rfl, rfl, by simp, fun _ h => h, fun _ h => h, by simp⟩
  | cons e m ih =>
    intro w hlive
    obtain ⟨w2, h1, h2, h3, h4, h5, h6⟩ :=
      SetActive_callback w e.2 b (hlive e (List.mem_cons_self e m))
    obtain ⟨w3, k1, k2, k3, k4, k5, k6⟩ :=
      ih w2 (fun x hx => h4 _ (hlive x (List.mem_cons_of_mem e hx)))
    refine ⟨w3, ?_, k2.trans h2, ?_, fun q hq => k4 q (h4 q hq),
      fun q hq => k5 q (h5 q hq), ?_⟩
    · simp only [ForEach, h1, Option.map_some']
      exact k1
    · rw [k3, h3]
      simp
    · intro x hx
      rcases List.mem_cons.mp hx with hxe | hxm
      · subst hxe
        exact k5 _ h6
      · exact k6 x hxm

/-- C6: for every state in which the registered pointers point to live scenes
and every `b`, `SetActiveAll(b)` succeeds; afterwards `QActive` is `b` for
every registered scene, the log has grown by the access to the map followed by
one callback per entry of the map, in order, and the map is unchanged. -/
theorem C6_SetActiveAll {F : Type} (w : World F) (b : Bool)
    (hlive : ∀ e ∈ w.MenuScenes, (w.deref e.2).isSome = true) :
    ∃ w1, SetActiveAll b w = some w1 ∧
      (∀ e ∈ w.MenuScenes, QActive e.2 w1 = some b) ∧
      w1.log = w.log ++ Event.MapForEach :: w.MenuScenes.map (fun e => Event.Callback e.2) ∧
      w1.MenuScenes = w.MenuScenes := by
  obtain ⟨w1, h1, h2, h3, _, _, h6⟩ :=
    ForEach_SetActive b w.MenuScenes (w.emit [Event.MapForEach])
      (fun e he => by simpa [World.deref, World.emit] using hlive e he)
  refine ⟨w1, h1, h6, ?_, h2⟩
  rw [h3]
  simp [World.emit]

/-- An instance of C6: both scenes of `registeredWorld` are live, and
`SetActiveAll(true)` sets both. -/
theorem C6_SetActiveAll_witness :
    (∀ e ∈ registeredWorld.MenuScenes, (registeredWorld.deref e.2).isSome = true) ∧
    ∃ w1, SetActiveAll true registeredWorld = some w1 ∧
      (∀ e ∈ registeredWorld.MenuScenes, QActive e.2 w1 = some true) ∧
      w1.log = registeredWorld.log ++
        Event.MapForEach :: registeredWorld.MenuScenes.map (fun e => Event.Callback e.2) ∧
      w1.MenuScenes = registeredWorld.MenuScenes :=
  ⟨by decide, C6_SetActiveAll registeredWorld true (by decide)⟩

/-- The log of `Register` respects the lock: the map is written between the
acquisition and the release of the write lock. -/
theorem Register_guarded {F : Type} (w w1 : World F) (p : ScenePtr)
    (h : Register p w = some w1) :
    ∃ es, w1.log = w.log ++ es ∧ guarded LockState.Free es = true := by
  unfold Register at h
  split at h
  · cases h
  · cases h
    exact ⟨_, rfl, rfl⟩

/-- The log of `Unregister` respects the lock. -/
theorem Unregister_guarded {F : Type} (w w1 : World F) (p : ScenePtr)
    (h : Unregister p w = some w1) :
    ∃ es, w1.log = w.log ++ es ∧ guarded LockState.Free es = true := by
  unfold Unregister at h
  split at h
  · cases h
  · cases h
    exact ⟨_, rfl, rfl⟩

/-- The log of `GetByName` respects the lock: the map is read between the
acquisition and the release of the read lock. -/
theorem GetByName_guarded {F : Type} (w : World F) (n : BSFixedString) :
    ∃ es, (GetByName n w).2.log = w.log ++ es ∧ guarded LockState.Free es = true :=
  ⟨_, rfl, rfl⟩

/-- C7, at the world `registeredWorld`: `SetActiveAll(true)`, and
`ForEachScene` with a callback that does nothing, log the access to the map
and the two callbacks and no acquisition of `ScenesRWLock`; their logs do not
respect the lock, while those of `Register`, `Unregister` and `GetByName` on
the same world do. -/
theorem C7_ForEachScene_takes_no_lock :
    (∃ w1, SetActiveAll true registeredWorld = some w1 ∧
      w1.log = [Event.MapForEach, Event.Callback 1, Event.Callback 2] ∧
      guarded LockState.Free w1.log = false) ∧
    (∃ w1, ForEachScene (fun _ w => some w) registeredWorld = some w1 ∧
      w1.log = [Event.MapForEach, Event.Callback 1, Event.Callback 2] ∧
      guarded LockState.Free w1.log = false) ∧
    (∃ w1, Register 1 registeredWorld = some w1 ∧
      w1.log = [Event.AcquireWrite, Event.MapSetAt "MainMenu" 1, Event.ReleaseWrite] ∧
      guarded LockState.Free w1.log = true) ∧
    (∃ w1, Unregister 1 registeredWorld = some w1 ∧
      w1.log = [Event.AcquireWrite, Event.MapRemove "MainMenu", Event.ReleaseWrite] ∧
      guarded LockState.Free w1.log = true) ∧
    (GetByName "Main" registeredWorld).2.log
        = [Event.AcquireRead, Event.MapGetAt "Main", Event.ReleaseRead] ∧
      guarded LockState.Free (GetByName "Main" registeredWorld).2.log = true := by
  refine ⟨⟨_, rfl, rfl, rfl⟩, ⟨_, rfl, rfl, rfl⟩, ⟨_, rfl, rfl, rfl⟩, ⟨_, rfl, rfl, rfl⟩,
    rfl, rfl⟩

/-- C10: for every state and every two live scenes `a` and `b` at different
addresses with the same name, `Register(a)`, `Register(b)`, `Unregister(a)`
succeed and leave `b` live with no entry under its name, so that `GetByName`
of the name returns `nullptr`; and there is a sequence of constructions and
destructions with that outcome: two scenes named `MainMenu` built at addresses
1 and 2, then the first destroyed. -/
theorem C10_unregister_is_by_name {F : Type} (w : World F) (a b : ScenePtr) (A B : Scene F)
    (hA : w.deref a = some A) (hB : w.deref b = some B) (_hab : a ≠ b)
    (hname : A.Name = B.Name) :
    (∃ w1 w2 w3, Register a w = some w1 ∧ Register b w1 = some w2 ∧
      Unregister a w2 = some w3 ∧ (GetByName A.Name w3).1 = nullptr ∧
      w3.deref b = some B ∧ entriesFor B.Name w3.MenuScenes = 0) ∧
    (∃ w1 w2 w3 : World Int,
      Scene.construct intOps exampleSettings 1 "MainMenu" 0 emptyWorld = some w1 ∧
      Scene.construct intOps exampleSettings 2 "MainMenu" 0 w1 = some w2 ∧
      (GetByName "MainMenu" w2).1 = 2 ∧
      Scene.destroy 1 w2 = some w3 ∧ (w3.deref 2).isSome = true ∧
      (GetByName "MainMenu" w3).1 = nullptr ∧ entriesFor "MainMenu" w3.MenuScenes = 0) := by
  refine ⟨⟨_, _, _, Register_eq w a A hA, Register_eq _ b B ?_, Unregister_eq _ a A ?_,
    ?_, ?_, ?_⟩, ⟨_, _, _, rfl, rfl, rfl, rfl, rfl, rfl, rfl⟩⟩
  · simpa [World.deref] using hB
  · simpa [World.deref] using hA
  · simp [GetByName, hname, GetAt_Remove]
  · simpa [World.deref] using hB
  · simp [hname, entriesFor_Remove]

/-- An instance of C10 at the two example scenes, both named `MainMenu`. -/
theorem C10_unregister_is_by_name_witness :
    twoScenes.deref 1 = some sceneA ∧ twoScenes.deref 2 = some sceneB ∧ (1 : ScenePtr) ≠ 2 ∧
    sceneA.Name = sceneB.Name ∧
    ∃ w1 w2 w3, Register 1 twoScenes = some w1 ∧ Register 2 w1 = some w2 ∧
      Unregister 1 w2 = some w3 ∧ (GetByName sceneA.Name w3).1 = nullptr ∧
      w3.deref 2 = some sceneB ∧ entriesFor sceneB.Name w3.MenuScenes = 0 :=
  ⟨rfl, rfl, by decide, rfl,
    (C10_unregister_is_by_name twoScenes 1 2 sceneA sceneB rfl rfl (by decide) rfl).1⟩

/-! ## Menu to texture: the name test and the traversal -/

/-- Different characters have a non-zero difference. -/
theorem toNat_sub_ne_zero (a b : Char) (h : a ≠ b) : (a.toNat : Int) - (b.toNat : Int) ≠ 0 := by
  intro h0
  apply h
  have h1 : a.toNat = b.toNat := by omega
  exact Char.ext (UInt32.ext h1)

/-- For a string `o` with no NUL among its characters, `strncmp(g, o,
length(o))` is zero exactly when `o` is a prefix of `g`. -/
theorem strncmp_eq_zero_iff (o : List Char) (hnul : NUL ∉ o) :
    ∀ g : List Char, strncmp g o o.length = 0 ↔ o <+: g := by
  induction o with
  | nil =>
    intro g
    simp [strncmp]
  | cons c o ih =>
    have hc : c ≠ NUL := fun h => hnul (by simp [h])
    have ho : NUL ∉ o := fun h => hnul (List.mem_cons_of_mem c h)
    intro g
    cases g with
    | nil =>
      have h1 : NUL ≠ c := fun h => hc h.symm
      simp [strncmp, h1, toNat_sub_ne_zero NUL c h1]
    | cons d g =>
      by_cases hdc : d = c
      · subst hdc
        simp [strncmp, hc, ih ho g, List.prefix_cons_inj]
      · have hcd : ¬ c = d := fun h => hdc h.symm
        simp [strncmp, hdc, hcd, toNat_sub_ne_zero d c hdc, List.cons_prefix_cons]

/-- The test of `SetupMenuToTextureOnObject` selects the names that have the
object name as a prefix, when the object name is not empty and has no NUL
among its characters. -/
theorem nameSelected_iff (o g : BSFixedString) (hne : QEmpty o = false)
    (hnul : NUL ∉ QString o) :
    nameSelected o g = true ↔ QString o <+: QString g := by
  have h := strncmp_eq_zero_iff (QString o) hnul (QString g)
  simp only [QString] at h
  simp only [nameSelected, QLength, QString, QEmpty, Bool.and_eq_true, Bool.not_eq_true',
    decide_eq_true_eq, h]
  constructor
  · exact fun hh => hh.2
  · intro hp
    refine ⟨?_, hp⟩
    cases hg : g.data with
    | nil =>
      rw [hg] at hp
      have ho : o.data = [] := List.prefix_nil.mp hp
      simp [QEmpty, ho] at hne
    | cons d t => rfl

/-- A visit whose callback appends a request for the selected geometries and
always continues issues the requests of the selected geometries, in order. -/
theorem visitGeometries_collect (sel : BSGeometry → Bool) (req : BSGeometry → ModifyLayerRequest)
    (gs : List BSGeometry) :
    ∀ acc : List ModifyLayerRequest,
    visitGeometries
      (fun g reqs => (if sel g then reqs ++ [req g] else reqs, BSVisitControl.Continue))
      gs acc = acc ++ (gs.filter sel).map req := by
  induction gs with
  | nil =>
    intro acc
    simp [visitGeometries]
  | cons g gs ih =>
    intro acc
    by_cases hg : sel g = true
    · simp [visitGeometries, hg, ih]
    · simp [visitGeometries, hg, ih]

/-- C8: for a scene with a root, and an object name that is not empty (and,
being a C string, has no NUL among its characters),
`SetupMenuToTextureOnObject` succeeds and issues one request, for layer 0 and
the `Base` texture, for each geometry under the root whose name has the object
name as a prefix, in traversal order, and no other request; a name that is
empty, shorter than the object name, or different from it within its first
`length(objectName)` characters does not have it as a prefix; and with an
empty object name the call fails for every scene, no request issued. -/
theorem C8_menu_to_texture_on_object {F : Type} (s : Scene F) (root : NiAVObject)
    (aObjectName : BSFixedString) (hroot : s.spScene = some root)
    (hne : QEmpty aObjectName = false) (hnul : NUL ∉ QString aObjectName) :
    SetupMenuToTextureOnObject s aObjectName =
      some ((root.geometries.filter
          (fun g => decide (QString aObjectName <+: QString g.name))).map
        (fun g => { material := g.QMaterialInstanceKey, layer := 0, slotIsBase := true })) ∧
    (∀ name : BSFixedString,
      (QString name = [] ∨ QLength name < QLength aObjectName ∨
        (QString name).take (QLength aObjectName) ≠ QString aObjectName) →
      ¬ (QString aObjectName <+: QString name)) ∧
    (∀ s1 : Scene F, SetupMenuToTextureOnObject s1 "" = none) := by
  refine ⟨?_, ?_, ?_⟩
  · have hsel : (fun g : BSGeometry => nameSelected aObjectName g.name)
        = (fun g => decide (QString aObjectName <+: QString g.name)) := by
      funext g
      rw [Bool.eq_iff_iff, nameSelected_iff aObjectName g.name hne hnul]
      simp
    simp only [SetupMenuToTextureOnObject, hne, hroot, TraverseScenegraphGeometries]
    rw [← hsel]
    simpa using visitGeometries_collect (fun g => nameSelected aObjectName g.name)
      (fun g => { material := g.QMaterialInstanceKey, layer := 0, slotIsBase := true })
      root.geometries []
  · intro name h hp
    rcases h with h | h | h
    · rw [h] at hp
      have ho : QString aObjectName = [] := List.prefix_nil.mp hp
      simp [QEmpty, QString] at hne ho
      exact hne ho
    · have := hp.length_le
      simp only [QLength, QString] at h this
      omega
    · apply h
      simpa [QLength, QString] using (List.prefix_iff_eq_take.mp hp).symm
  · intro s1
    rfl

/-- An instance of C8: with the object name `Screen`, the two geometries of
`exampleGraph` whose names start with `Screen` get a request, the other three
do not. -/
theorem C8_menu_to_texture_on_object_witness :
    sceneWithGraph.spScene = some exampleGraph ∧ QEmpty "Screen" = false ∧
    NUL ∉ QString "Screen" ∧
    SetupMenuToTextureOnObject sceneWithGraph "Screen" =
      some [{ material := 10, layer := 0, slotIsBase := true },
            { material := 12, layer := 0, slotIsBase := true }] ∧
    (SetupMenuToTextureOnObject sceneWithGraph "Screen" =
      some ((exampleGraph.geometries.filter
          (fun g => decide (QString "Screen" <+: QString g.name))).map
        (fun g => { material := g.QMaterialInstanceKey, layer := 0, slotIsBase := true })) ∧
    (∀ name : BSFixedString,
      (QString name = [] ∨ QLength name < QLength "Screen" ∨
        (QString name).take (QLength "Screen") ≠ QString "Screen") →
      ¬ (QString "Screen" <+: QString name)) ∧
    (∀ s1 : Scene Int, SetupMenuToTextureOnObject s1 "" = none)) :=
  ⟨rfl, rfl, by decide, by decide,
    C8_menu_to_texture_on_object sceneWithGraph exampleGraph "Screen" rfl rfl (by decide)⟩

/-! ## The camera -/

/-- C5: for every requested field of view that is `<= 0`, and all settings,
the frustum of `SetupCamera` is the frustum of `SetupCamera` called with
the default field of view `fDefaultFOV`; and for every requested field of view
that is `> 0`, the frustum is the one computed from the requested value. -/
theorem C5_default_fov_substitution {F : Type} (ops : FloatOps F) (cfg : Settings F)
    (Name : BSFixedString) (fovLow fovHigh : F)
    (hlow : ops.le fovLow ops.zero = true) (hhigh : ops.gt fovHigh ops.zero = true) :
    (SetupCamera ops cfg Name fovLow).ViewFrustum =
      (SetupCamera ops cfg Name cfg.fDefaultFOV).ViewFrustum ∧
    (SetupCamera ops cfg Name fovHigh).ViewFrustum =
      (let theta := ops.mul (ops.mul fovHigh cfg.DEG_TO_RAD) cfg.FOVScaleC
       let aspect := ops.div (ops.ofUInt cfg.BackbufferWidth) (ops.ofUInt cfg.BackbufferHeight)
       { m_fLeft := ops.mul (ops.neg (ops.tan theta)) aspect
         m_fRight := ops.mul (ops.tan theta) aspect
         m_fBottom := ops.neg (ops.tan theta)
         m_fTop := ops.tan theta
         m_fNear := cfg.fUICameraNearDistance
         m_fFar := cfg.fUICameraFarDistance }) := by
  constructor
  · have h1 : ops.gt fovLow ops.zero = false := ops.le_zero_not_gt fovLow hlow
    by_cases hd : ops.gt cfg.fDefaultFOV ops.zero = true
    · simp [SetupCamera, h1, hd]
    · simp [SetupCamera, h1, hd]
  · simp [SetupCamera, QRenderTargetSize, hhigh]

/-- An instance of C5 over the integers: the requests `-3` and `0` give the
frustum of the default, 75; the request 60 is used as it is. -/
theorem C5_default_fov_substitution_witness :
    intOps.le (-3) intOps.zero = true ∧ intOps.gt 60 intOps.zero = true ∧
    (SetupCamera intOps exampleSettings "MainMenu" (-3)).ViewFrustum =
      (SetupCamera intOps exampleSettings "MainMenu" exampleSettings.fDefaultFOV).ViewFrustum ∧
    (SetupCamera intOps exampleSettings "MainMenu" 0).ViewFrustum.m_fTop = 75 ∧
    (SetupCamera intOps exampleSettings "MainMenu" 60).ViewFrustum.m_fTop = 60 :=
  ⟨by decide, by decide,
    (C5_default_fov_substitution intOps exampleSettings "MainMenu" (-3) 60
      (by decide) (by decide)).1,
    by decide, by decide⟩

/-! ## Viewport: facts about rounding -/

/-- An integer rounds to itself. -/
theorem roundEven_intCast (n : ℤ) : roundEven (n : ℚ) = n := by
  simp [roundEven]

/-- Zero is a float. -/
theorem rne_zero : rne 0 = 0 := by
  simp [rne, roundEven]

/-- A rational `m * 2^k` with `|m| < 2^24` and `k >= -149` is a binary32 float:
rounding leaves it as it is. -/
theorem rne_representable (m k : ℤ) (hm : |m| < 2 ^ 24) (hk : -149 ≤ k) :
    rne ((m : ℚ) * (2 : ℚ) ^ k) = (m : ℚ) * (2 : ℚ) ^ k := by
  rcases eq_or_ne m 0 with h0 | hne
  · subst h0
    simp [rne_zero]
  have hx : (0 : ℚ) < |(m : ℚ) * (2 : ℚ) ^ k| := by
    apply abs_pos.mpr
    apply mul_ne_zero
    · exact_mod_cast hne
    · exact (zpow_pos (by norm_num) _).ne'
  -- the exponent of the unit in the last place is at most `k`
  have hlog : Int.log 2 |(m : ℚ) * (2 : ℚ) ^ k| < k + 24 := by
    rw [← Int.lt_zpow_iff_log_lt (by norm_num) hx]
    rw [abs_mul, abs_of_pos (zpow_pos (by norm_num : (0 : ℚ) < 2) k), zpow_add₀ (by norm_num)]
    rw [mul_comm]
    apply mul_lt_mul_of_pos_left _ (zpow_pos (by norm_num) _)
    have : ((|m| : ℤ) : ℚ) < ((2 ^ 24 : ℤ) : ℚ) := by exact_mod_cast hm
    rw [Int.cast_abs] at this
    norm_num at this ⊢
    exact this
  have hle : ulpExp ((m : ℚ) * (2 : ℚ) ^ k) ≤ k := by
    unfold ulpExp
    have := max_le (a := Int.log 2 |(m : ℚ) * (2 : ℚ) ^ k|) (b := -126) (c := k + 23)
      (by omega) (by omega)
    omega
  obtain ⟨d, hd⟩ : ∃ d : ℕ, k = ulpExp ((m : ℚ) * (2 : ℚ) ^ k) + d :=
    ⟨(k - ulpExp ((m : ℚ) * (2 : ℚ) ^ k)).toNat, by omega⟩
  unfold rne
  generalize ulpExp ((m : ℚ) * (2 : ℚ) ^ k) = u at hd ⊢
  have hq : (m : ℚ) * (2 : ℚ) ^ k / (2 : ℚ) ^ u = ((m * 2 ^ d : ℤ) : ℚ) := by
    rw [hd, zpow_add₀ (by norm_num), zpow_natCast]
    field_simp
    ring
  rw [hq, roundEven_intCast, hd, zpow_add₀ (by norm_num)]
  push_cast
  rw [zpow_natCast]
  ring


/-- A natural number below `2^24` is a float. -/
theorem rne_natCast (n : ℕ) (hn : n < 2 ^ 24) : rne (n : ℚ) = n := by
  have h := rne_representable (n : ℤ) 0 (by rw [abs_of_nonneg (by positivity)]; exact_mod_cast hn)
    (by norm_num)
  simpa using h

/-- A float operation with a finite non-negative rounded result. -/
theorem roundF32_eq (x : ℚ) (h0 : 0 ≤ rne x) (h1 : rne x < (2 : ℚ) ^ (128 : ℕ)) :
    roundF32 x = some (rne x) := by
  simp [roundF32, abs_of_nonneg h0, h1]

/-- The conversion to `int32_t` of a non-negative value below `2^31`. -/
theorem toInt32_eq (x : ℚ) (h0 : 0 ≤ x) (h1 : x < (2 : ℚ) ^ (31 : ℕ)) :
    toInt32 x = some ⌊x⌋ := by
  have hf : 0 ≤ ⌊x⌋ := Int.floor_nonneg.mpr h0
  have hlt : ⌊x⌋ < (2 : ℤ) ^ 31 := by
    have : (⌊x⌋ : ℚ) < ((2 ^ 31 : ℤ) : ℚ) := by
      push_cast
      exact lt_of_le_of_lt (Int.floor_le x) h1
    exact_mod_cast this
  have ht : truncate x = ⌊x⌋ := by simp [truncate, h0]
  rw [toInt32, ht, if_pos ⟨by omega, hlt⟩]

/-- The conversion to `uint32_t` of a natural number below `2^32`. -/
theorem toUInt32_natCast (n : ℕ) (hn : n < 2 ^ 32) : toUInt32 (n : ℚ) = some n := by
  have ht : truncate (n : ℚ) = n := by simp [truncate]
  rw [toUInt32, ht, if_pos ⟨by positivity, by exact_mod_cast hn⟩]
  simp


/-- The call `SetViewport` makes, from the results of its steps. -/
theorem SetViewport_of_steps (W H : ℕ) (area : NiRect) (x y w h : ℤ) (dw dh : ℚ)
    (hW : toUInt32 (floatOfUInt32 W) = some W) (hH : toUInt32 (floatOfUInt32 H) = some H)
    (hx : (fmul (floatOfUInt32 W) area.m_left).bind toInt32 = some x)
    (hy : (fmul (floatOfUInt32 H) area.m_top).bind toInt32 = some y)
    (hdw : fsub area.m_right area.m_left = some dw)
    (hw : (fmul (floatOfUInt32 W) dw).bind toInt32 = some w)
    (hdh : fsub area.m_bottom area.m_top = some dh)
    (hh : (fmul (floatOfUInt32 H) dh).bind toInt32 = some h) :
    SetViewport W H area
      = some { bufW := W, bufH := H, left := x, top := y, width := w, height := h } := by
  simp only [SetViewport, QRenderTargetSize, hW, hH, hx, hy, hdw, hw, hdh, hh,
    Option.bind_eq_bind, Option.some_bind, Option.pure_def]

/-- The binary logarithm of a value in `[2^e, 2^(e+1))`. -/
theorem log_two_eq (x : ℚ) (e : ℤ) (h1 : (2 : ℚ) ^ e ≤ x) (h2 : x < (2 : ℚ) ^ (e + 1)) :
    Int.log 2 x = e := by
  have hx : 0 < x := lt_of_lt_of_le (zpow_pos (by norm_num) e) h1
  have ha : e ≤ Int.log 2 x := by
    rw [← Int.zpow_le_iff_le_log (by norm_num) hx]
    simpa using h1
  have hb : Int.log 2 x < e + 1 := by
    rw [← Int.lt_zpow_iff_log_lt (by norm_num) hx]
    simpa using h2
  omega

/-- The rounding of a value above the midpoint of `f` and `f + 1`. -/
theorem roundEven_of_gt (y : ℚ) (f : ℤ) (h1 : (f : ℚ) + 1 / 2 < y) (h2 : y < f + 1) :
    roundEven y = f + 1 := by
  have hf : ⌊y⌋ = f := by
    rw [Int.floor_eq_iff]
    constructor <;> linarith
  rw [roundEven, hf, if_neg (by linarith), if_pos (by linarith)]

/-- The rounding of the midpoint of an odd `f` and `f + 1`. -/
theorem roundEven_tie_odd (y : ℚ) (f : ℤ) (h : y = f + 1 / 2) (hodd : f % 2 = 1) :
    roundEven y = f + 1 := by
  have hf : ⌊y⌋ = f := by
    rw [Int.floor_eq_iff]
    constructor <;> linarith
  rw [roundEven, hf, if_neg (by linarith), if_neg (by linarith), if_neg (by omega)]

/-- The rounding of a positive `x` with `2^e <= x < 2^(e+1)`, `e >= -126`, from
the rounding of its significand. -/
theorem rne_eval (x : ℚ) (e n : ℤ) (h1 : (2 : ℚ) ^ e ≤ x) (h2 : x < (2 : ℚ) ^ (e + 1))
    (he : -126 ≤ e) (hn : roundEven (x / (2 : ℚ) ^ (e - 23)) = n) :
    rne x = (n : ℚ) * (2 : ℚ) ^ (e - 23) := by
  have hx : 0 < x := lt_of_lt_of_le (zpow_pos (by norm_num) e) h1
  have hu : ulpExp x = e - 23 := by
    rw [ulpExp, abs_of_pos hx, log_two_eq x e h1 h2, max_eq_left he]
  rw [rne, hu, hn]

/-- One is a float. -/
theorem rne_one : rne 1 = 1 := by
  simpa using rne_natCast 1 (by norm_num)

/-- A float product with a known rounded value, converted to `int32_t`. -/
theorem fmul_toInt32_eval (a b v : ℚ) (n : ℤ) (hv : rne (a * b) = v) (h0 : 0 ≤ v)
    (h1 : v < (2 : ℚ) ^ (31 : ℕ)) (hn : ⌊v⌋ = n) : (fmul a b).bind toInt32 = some n := by
  rw [fmul, roundF32_eq _ (by rw [hv]; exact h0) (by rw [hv]; exact lt_trans h1 (by norm_num)),
    hv, Option.some_bind, toInt32_eq _ h0 h1, hn]

/-- A float difference with a known rounded value. -/
theorem fsub_eval (a b v : ℚ) (hv : rne (a - b) = v) (h0 : 0 ≤ v)
    (h1 : v < (2 : ℚ) ^ (128 : ℕ)) : fsub a b = some v := by
  rw [fsub, roundF32_eq _ (by rw [hv]; exact h0) (by rw [hv]; exact h1), hv]

/-- The float of the integer 1. -/
theorem floatOfUInt32_one : floatOfUInt32 1 = 1 := by
  simpa [floatOfUInt32] using rne_natCast 1 (by norm_num)

/-- The viewport also leaves the render target at a width below `2^24`:
with a render target 12591154 wide and the rectangle left
`11193225 / 2^25`, right 1, the origin is 4200209 and the width 8390946, which
add up to `W + 1`. -/
theorem SetViewport_outside_near_bound :
    rne (11193225 / 33554432) = 11193225 / 33554432 ∧
    SetViewport 12591154 1
      { m_left := 11193225 / 33554432, m_right := 1, m_top := 0, m_bottom := 1 }
      = some { bufW := 12591154, bufH := 1, left := 4200209, top := 0,
               width := 8390946, height := 1 } ∧
    ¬ ((4200209 : ℤ) + 8390946 ≤ 12591154) := by
  have hW : floatOfUInt32 12591154 = 12591154 := by
    simpa [floatOfUInt32] using rne_natCast 12591154 (by norm_num)
  have hl : rne (11193225 / 33554432) = 11193225 / 33554432 := by
    have h := rne_representable 11193225 (-25) (by norm_num) (by norm_num)
    norm_num at h ⊢
    exact h
  have h1 : rne (12591154 * (11193225 / 33554432)) = 4200209 := by
    rw [rne_eval _ 22 8400418 (by norm_num) (by norm_num) (by norm_num)
      (roundEven_of_gt _ 8400417 (by norm_num) (by norm_num))]
    norm_num
  have h2 : rne (1 - 11193225 / 33554432) = 2795151 / 4194304 := by
    rw [rne_eval _ (-1) 11180604 (by norm_num) (by norm_num) (by norm_num)
      (roundEven_tie_odd _ 11180603 (by norm_num) (by norm_num))]
    norm_num
  have h3 : rne (12591154 * (2795151 / 4194304)) = 8390946 := by
    rw [rne_eval _ 23 8390946 (by norm_num) (by norm_num) (by norm_num)
      (roundEven_of_gt _ 8390945 (by norm_num) (by norm_num))]
    norm_num
  refine ⟨hl, ?_, by norm_num⟩
  apply SetViewport_of_steps 12591154 1 _ 4200209 0 8390946 1 (2795151 / 4194304) 1
  · rw [hW]
    exact_mod_cast toUInt32_natCast 12591154 (by norm_num)
  · rw [floatOfUInt32_one]
    exact_mod_cast toUInt32_natCast 1 (by norm_num)
  · rw [hW]
    exact fmul_toInt32_eval _ _ 4200209 4200209 h1 (by norm_num) (by norm_num) (by norm_num)
  · rw [floatOfUInt32_one]
    exact fmul_toInt32_eval _ _ 0 0 (by norm_num [rne_zero]) (by norm_num) (by norm_num)
      (by norm_num)
  · exact fsub_eval _ _ _ h2 (by norm_num) (by norm_num)
  · rw [hW]
    exact fmul_toInt32_eval _ _ 8390946 8390946 h3 (by norm_num) (by norm_num) (by norm_num)
  · exact fsub_eval _ _ 1 (by norm_num [rne_one]) (by norm_num) (by norm_num)
  · rw [floatOfUInt32_one]
    exact fmul_toInt32_eval _ _ 1 1 (by norm_num [rne_one]) (by norm_num) (by norm_num)
      (by norm_num)

/-- Rounding to an integer, ties to even, commutes with negation. -/
theorem roundEven_neg (y : ℚ) : roundEven (-y) = -roundEven y := by
  by_cases hy : (⌊y⌋ : ℚ) = y
  · rw [← hy, ← Int.cast_neg, roundEven_intCast, roundEven_intCast]
  · have h1 : (⌊y⌋ : ℚ) < y := lt_of_le_of_ne (Int.floor_le y) hy
    have h2 : y < ⌊y⌋ + 1 := Int.lt_floor_add_one y
    have hf : ⌊-y⌋ = -⌊y⌋ - 1 := by
      rw [Int.floor_eq_iff]
      push_cast
      constructor <;> linarith
    unfold roundEven
    rw [hf]
    push_cast
    split_ifs <;> first | omega | (exfalso; linarith)

/-- Rounding to nearest, ties to even, commutes with negation. -/
theorem rne_neg (x : ℚ) : rne (-x) = -rne x := by
  have hu : ulpExp (-x) = ulpExp x := by simp [ulpExp]
  rw [rne, rne, hu, neg_div, roundEven_neg]
  push_cast
  ring

/-- The identity `neg_mul` of `FloatOps` holds of the binary32 product:
negating a factor negates the product, overflow included. -/
theorem fmul_neg (a b : ℚ) : fmul (-a) b = (fmul a b).map (fun v => -v) := by
  simp only [fmul, roundF32, neg_mul, rne_neg, abs_neg]
  split_ifs <;> rfl

end BSMenu3D
